import Mathlib

/-!
Verification of the `injector` dependency-injection container.

The Go source works over `reflect`; we embed the fragment of the Go type and
value universe that the library inspects: kinds, assignability (type identity
or interface implementation), struct fields with their `injector` tags, and
function signatures.  Mutation of a pointed-to struct during field population
is modelled by an explicit heap (a list of values indexed by address).

The registration pipeline modelled here is the error-returning variant of the
library (`NamedComponent` dispatching on function kind, `Component`,
`Get`, `Inject`, `populate`, `loadDepForTag`, `executeFunc`,
`generateInParams`, `findByType`), together with the helpers `isStructPtr`,
`implementsError` and `hasInjectTag` from the utils file.
-/

set_option autoImplicit false

/-- Kinds of the modelled Go types, mirroring `reflect.Kind` for the kinds the
library inspects (`reflect.Func`, `reflect.Ptr`, `reflect.Struct`); all other
concrete kinds are collapsed into the ones below. -/
inductive Kind where
  | kInt
  | kString
  | kIface
  | kOther
  | kStruct
  | kPtr
  | kFunc
deriving DecidableEq, Repr

/-- The modelled fragment of Go types.  A named opaque type
(`tNamed n impls`) carries the list of interface names it implements, which is
what `AssignableTo` consults when the target is an interface.  Struct field
lists live in a separate `StructEnv` keyed by the struct name, so that the
type syntax stays a plain inductive. -/
inductive GoType where
  | tInt
  | tString
  | tIface (name : String)
  | tNamed (name : String) (impls : List String)
  | tStruct (name : String)
  | tPtr (e : GoType)
  | tFunc (name : String)
  | tNilIface
deriving DecidableEq, Repr

/-- The kind of a modelled type, as `reflect.Type.Kind` reports it. -/
def GoType.kind : GoType → Kind
  | .tInt => .kInt
  | .tString => .kString
  | .tIface _ => .kIface
  | .tNamed _ _ => .kOther
  | .tStruct _ => .kStruct
  | .tPtr _ => .kPtr
  | .tFunc _ => .kFunc
  | .tNilIface => .kOther

/-- The pointee type, as `reflect.Type.Elem` reports it for pointer types. -/
def GoType.pointee : GoType → GoType
  | .tPtr e => e
  | t => t

/-- Rendering of a type into the error-message strings the library produces
with the %s verb of fmt.Errorf. -/
def GoType.str : GoType → String
  | .tInt => "int"
  | .tString => "string"
  | .tIface n => n
  | .tNamed n _ => n
  | .tStruct n => n
  | .tPtr e => "*" ++ e.str
  | .tFunc n => "func " ++ n
  | .tNilIface => "<nil>"

/-- Whether a modelled type implements the interface named `i`
(`reflect.Type.Implements` restricted to the modelled universe: an interface
implements itself, a named opaque type implements the interfaces it lists). -/
def implementsIface (t : GoType) (i : String) : Bool :=
  match t with
  | .tIface n => n = i
  | .tNamed _ impls => impls.contains i
  | _ => false

/-- Go assignability for the modelled universe (`reflect.Type.AssignableTo`):
identical types, or the target is an interface the source implements. -/
def assignableTo (s t : GoType) : Bool :=
  s = t ||
    match t with
    | .tIface i => implementsIface s i
    | _ => false

/-- A declared struct field: its declared type and the value of its
`injector` tag when the tag is present (`StructTag.Lookup "injector"`). -/
structure FieldInfo where
  ftype : GoType
  tag : Option String
deriving DecidableEq, Repr

/-- The struct declarations of the modelled program: the ordered field list of
each struct type, keyed by struct name. -/
abbrev StructEnv := String → List FieldInfo

/-- The modelled fragment of Go values.  A pointer value carries the static
type of its pointee and a heap address; a function value is a name resolved
through a `FuncEnv`; `vNil` is the nil interface value. -/
inductive GoValue where
  | vInt (n : Int)
  | vString (s : String)
  | vNamed (tyName : String) (impls : List String) (payload : Nat)
  | vStruct (tyName : String) (fields : List GoValue)
  | vPtr (e : GoType) (addr : Nat)
  | vFunc (name : String)
  | vNil
deriving Repr

/-- The runtime type of a modelled value (`reflect.TypeOf`). -/
def typeOf : GoValue → GoType
  | .vInt _ => .tInt
  | .vString _ => .tString
  | .vNamed n impls _ => .tNamed n impls
  | .vStruct n _ => .tStruct n
  | .vPtr e _ => .tPtr e
  | .vFunc n => .tFunc n
  | .vNil => .tNilIface

/-- Whether an interface value is nil (`reflect.Value.IsNil` as the library
uses it on the second result of a factory function). -/
def GoValue.isNil : GoValue → Bool
  | .vNil => true
  | _ => false

/-- The name carried by a function value; only consulted when the value has
function kind. -/
def funcNameOf : GoValue → String
  | .vFunc n => n
  | _ => ""

/-- The behaviour of a function value: its declared input types, declared
output types, and its (pure) body.  The library only reads `NumIn`, `In`,
`NumOut`, `Out` and performs `Call`. -/
structure GoFunc where
  ins : List GoType
  outs : List GoType
  body : List GoValue → List GoValue

/-- The function declarations of the modelled program, keyed by name. -/
abbrev FuncEnv := String → GoFunc

/-- The stored form of a registered dependency, mirroring the source struct:
`value` is both the `value` and the `reflectValue` field (they coincide in the
embedding), `reflectType` is the stored `reflect.Type`, which for a
factory-produced dependency is the declared first output type. -/
structure dependency where
  value : GoValue
  reflectType : GoType

/-- The dependency table of the container: an association list from name to
dependency.  Go iterates the map in an unspecified order; theorems about
`findByType` therefore quantify over every list order. -/
abbrev DepTable := List (String × dependency)

/-- Map lookup on the dependency table (`c.dependencies[name]`). -/
def lookupDep : DepTable → String → Option dependency
  | [], _ => none
  | (k, d) :: rest, name => if k = name then some d else lookupDep rest name

/-- The heap holding pointed-to struct values; the address of a pointer value
indexes into it. -/
abbrev Heap := List GoValue

/-- Read field `i` of the struct stored at `addr`
(`reflect.Value.Elem().Field(i)` as an observation). -/
def getHeapField (heap : Heap) (addr i : Nat) : Option GoValue :=
  match List.get? heap addr with
  | some (.vStruct _ fs) => List.get? fs i
  | _ => none

/-- Write field `i` of the struct stored at `addr`
(`reflect.Value.Elem().Field(i).Set(v)`). -/
def setHeapField (heap : Heap) (addr i : Nat) (v : GoValue) : Heap :=
  match List.get? heap addr with
  | some (.vStruct n fs) => List.set heap addr (.vStruct n (List.set fs i v))
  | _ => heap

/-- Errors: library errors carry the exact message built by the source with
`fmt.Errorf`/`errors.New`; a user error is the verbatim non-nil second result
of a factory function. -/
inductive Err where
  | libErr (msg : String)
  | userErr (v : GoValue)

/-- The reserved tag value, constant `autoInjectionTag = "auto"`. -/
def autoInjectionTag : String := "auto"

/-- The constant `unnamedPrefix = "unnamed"` used for generated names. -/
def unnamedPref : String := "unnamed"

/-- Predicate `isStructPtr` from the utils file: the type has pointer kind and its
pointee has struct kind. -/
def isStructPtr (t : GoType) : Bool :=
  t.kind = Kind.kPtr && t.pointee.kind = Kind.kStruct

/-- Predicate `implementsError` from the utils file: the type implements the `error`
interface. -/
def implementsError (t : GoType) : Bool :=
  implementsIface t "error"

/-- Predicate `hasInjectTag` from the utils file: false unless the type of the
dependency has struct kind, in which case its declared fields are scanned for
an `injector` tag. -/
def hasInjectTag (senv : StructEnv) (t : GoType) : Bool :=
  match t with
  | .tStruct n => (senv n).any (fun f => f.tag.isSome)
  | _ => false

/-- The loop body of `findByType`: scan the remaining entries, tracking the
already-found match in `foundVal`; a second match is a conflict error, no
match at the end is a not-found error. -/
def findByTypeAux (t : GoType) : List (String × dependency) → Option dependency → Except Err dependency
  | [], none => .error (.libErr ("injector: couldn't find the dependency for " ++ t.str))
  | [], some d => .ok d
  | (_, v) :: rest, foundVal =>
    if assignableTo v.reflectType t then
      match foundVal with
      | some _ => .error (.libErr ("injector: there is a conflict when finding the dependency for " ++ t.str))
      | none => findByTypeAux t rest (some v)
    else
      findByTypeAux t rest foundVal

/-- Function `findByType`: type-based lookup over the whole table. -/
def findByType (deps : DepTable) (t : GoType) : Except Err dependency :=
  findByTypeAux t deps none

/-- Function `loadDepForTag`: the sentinel tag resolves by type, any other tag is an
exact map lookup failing with the not-registered error when absent. -/
def loadDepForTag (deps : DepTable) (tag : String) (t : GoType) : Except Err dependency :=
  if tag = autoInjectionTag then
    findByType deps t
  else
    match lookupDep deps tag with
    | none => .error (.libErr ("injector: " ++ tag ++ " is not registered"))
    | some d => .ok d

/-- The loop of `generateInParams`: resolve each declared input type by
`findByType`, left to right, propagating the first error. -/
def generateInParamsAux (deps : DepTable) : List GoType → Except Err (List GoValue)
  | [] => .ok []
  | t :: ts =>
    match findByType deps t with
    | .error e => .error e
    | .ok p =>
      match generateInParamsAux deps ts with
      | .error e => .error e
      | .ok ps => .ok (p.value :: ps)

/-- Function `generateInParams`: the argument list for a factory function call. -/
def generateInParams (deps : DepTable) (f : GoFunc) : Except Err (List GoValue) :=
  generateInParamsAux deps f.ins

/-- Function `executeFunc`: validate the factory signature (one or two results, second
result implementing `error`), resolve the inputs by type, call the function,
propagate a non-nil second result verbatim, and otherwise keep the first
result as the new dependency, typed with the declared first output type
(`out[0].Type()`). -/
def executeFunc (fenv : FuncEnv) (deps : DepTable) (fn : GoValue) : Except Err dependency :=
  let f := fenv (funcNameOf fn)
  if f.outs.length > 2 || f.outs.length < 1 then
    .error (.libErr "injector: unsupported factory function")
  else if f.outs.length = 2 && !implementsError (f.outs.getD 1 .tNilIface) then
    .error (.libErr "injector: 2nd output param must implement error")
  else
    match generateInParams deps f with
    | .error e => .error e
    | .ok inParams =>
      let out := f.body inParams
      if out.length = 2 && !(out.getD 1 .vNil).isNil then
        .error (.userErr (out.getD 1 .vNil))
      else
        .ok { value := out.getD 0 .vNil, reflectType := f.outs.getD 0 .tNilIface }

/-- The field loop of `populate`: walk the declared fields of the pointed-to
struct in declaration order, with `i` the index of the head field.  Untagged
fields are skipped; a tagged field is resolved with `loadDepForTag`, checked
for assignability, and written into the heap.  An error stops the loop and
returns the heap as mutated so far. -/
def populateFields (deps : DepTable) (addr : Nat) : List FieldInfo → Nat → Heap → Heap × Option Err
  | [], _, heap => (heap, none)
  | f :: rest, i, heap =>
    match f.tag with
    | none => populateFields deps addr rest (i + 1) heap
    | some tagValue =>
      match loadDepForTag deps tagValue f.ftype with
      | .error e => (heap, some e)
      | .ok loadedDep =>
        if !assignableTo loadedDep.reflectType f.ftype then
          (heap, some (.libErr ("injector: " ++ f.ftype.str ++ " is not assignable from " ++ loadedDep.reflectType.str)))
        else
          populateFields deps addr rest (i + 1) (setHeapField heap addr i loadedDep.value)

/-- Function `populate`: a dependency whose stored type is not pointer-to-struct is
left alone, failing only when its type itself carries an `injector` tag;
otherwise the pointee struct has its tagged fields resolved and assigned.
The first match arm is exactly the `isStructPtr` case: a value whose stored
type is pointer-to-struct is a `vPtr` onto a struct type. -/
def populate (senv : StructEnv) (deps : DepTable) (heap : Heap) (dep : dependency) : Heap × Option Err :=
  if !isStructPtr dep.reflectType then
    if hasInjectTag senv dep.reflectType then
      (heap, some (.libErr ("injector: " ++ dep.reflectType.str ++ " is not injectable, a pointer is expected")))
    else
      (heap, none)
  else
    match dep.reflectType.pointee, dep.value with
    | .tStruct n, .vPtr _ addr => populateFields deps addr (senv n) 0 heap
    | _, _ => (heap, none)

/-- The container: the name-to-dependency table and the counter used to
synthesize anonymous names. -/
structure Injector where
  dependencies : DepTable
  unnamedCounter : Nat

/-- Constructor `New`: an empty container. -/
def Injector.new : Injector :=
  { dependencies := [], unnamedCounter := 0 }

/-- Method `NamedComponent` (the error-returning registration): reject a duplicate
name, then the reserved name; a value of function kind goes through
`executeFunc`, any other value is wrapped as-is; the candidate is populated,
and only on success is the name bound.  The heap reflects any field
assignments `populate` performed, also on the error path. -/
def NamedComponent (fenv : FuncEnv) (senv : StructEnv) (c : Injector) (heap : Heap)
    (name : String) (dep : GoValue) : Injector × Heap × Option Err :=
  if (lookupDep c.dependencies name).isSome then
    (c, heap, some (.libErr ("injector: " ++ name ++ " is already registered")))
  else if name = autoInjectionTag then
    (c, heap, some (.libErr ("injector: " ++ autoInjectionTag ++ " is revserved, please use a different name")))
  else
    let depType := typeOf dep
    let toAddDep :=
      if depType.kind = Kind.kFunc then
        executeFunc fenv c.dependencies dep
      else
        Except.ok { value := dep, reflectType := depType }
    match toAddDep with
    | .error e => (c, heap, some e)
    | .ok d =>
      match populate senv c.dependencies heap d with
      | (heap2, some e) => (c, heap2, some e)
      | (heap2, none) =>
        ({ c with dependencies := c.dependencies ++ [(name, d)] }, heap2, none)

/-- The name-generation loop of `Component`: starting from the current
counter, skip every name already bound, advancing the counter once per
collision; the first free name is returned together with the counter value it
was generated from.  The loop terminates because the table is finite; `fuel`
bounds the iterations and one more than the table size always suffices. -/
def genNameLoop (deps : DepTable) : Nat → Nat → String × Nat
  | 0, counter => (unnamedPref ++ "." ++ toString counter, counter)
  | fuel + 1, counter =>
    let newName := unnamedPref ++ "." ++ toString counter
    if (lookupDep deps newName).isSome then
      genNameLoop deps fuel (counter + 1)
    else
      (newName, counter)

/-- Method `Component` (anonymous registration): generate the first free
`unnamed.<n>` name, keep the advanced counter in the container, and delegate
to `NamedComponent`. -/
def Component (fenv : FuncEnv) (senv : StructEnv) (c : Injector) (heap : Heap)
    (dep : GoValue) : Injector × Heap × Option Err :=
  let r := genNameLoop c.dependencies (c.dependencies.length + 1) c.unnamedCounter
  NamedComponent fenv senv { c with unnamedCounter := r.2 } heap r.1 dep

/-- Method `Get`: name lookup, failing when the name is unbound. -/
def Injector.get (c : Injector) (name : String) : Except Err GoValue :=
  match lookupDep c.dependencies name with
  | none => .error (.libErr "injector: the requested dependency couldn't be found")
  | some d => .ok d.value

/-- Method `Inject`: run field population on an object without registering it. -/
def Inject (senv : StructEnv) (c : Injector) (heap : Heap) (object : GoValue) : Heap × Option Err :=
  populate senv c.dependencies heap { value := object, reflectType := typeOf object }

/-! ## Helper lemmas -/

/-- The predicate `findByType` scans with: the stored type of the entry is
assignable to the target type. -/
def matchesType (t : GoType) (p : String × dependency) : Bool :=
  assignableTo p.2.reflectType t

/-- Characterization of the `findByType` loop for an arbitrary table order:
the result depends only on the sublist of matching entries and the
accumulator. -/
theorem findByTypeAux_eq (t : GoType) (l : List (String × dependency)) (acc : Option dependency) :
    findByTypeAux t l acc =
      match acc, List.filter (matchesType t) l with
      | none, [] => .error (.libErr ("injector: couldn't find the dependency for " ++ t.str))
      | none, [p] => .ok p.2
      | none, _ :: _ :: _ => .error (.libErr ("injector: there is a conflict when finding the dependency for " ++ t.str))
      | some d, [] => .ok d
      | some _, _ :: _ => .error (.libErr ("injector: there is a conflict when finding the dependency for " ++ t.str)) := by
  induction l generalizing acc with
  | nil => cases acc <;> rfl
  | cons p rest ih =>
    obtain ⟨s, v⟩ := p
    by_cases h : matchesType t (s, v)
    · rw [List.filter_cons_of_pos h]
      have hb : assignableTo v.reflectType t = true := h
      cases acc with
      | none =>
        simp only [findByTypeAux, hb, if_true]
        rw [ih (some v)]
        cases hrest : List.filter (matchesType t) rest <;> rfl
      | some d =>
        simp only [findByTypeAux, hb, if_true]
    · rw [List.filter_cons_of_neg h]
      have hb : assignableTo v.reflectType t = false := by
        simpa [matchesType] using h
      cases acc with
      | none => simp only [findByTypeAux, hb, if_false]; exact ih none
      | some d => simp only [findByTypeAux, hb, if_false]; exact ih (some d)

/-- A successful type-based lookup only ever returns a dependency whose stored
type is assignable to the requested type. -/
theorem findByType_ok_assignable (deps : DepTable) (t : GoType) (d : dependency)
    (h : findByType deps t = .ok d) : assignableTo d.reflectType t = true := by
  unfold findByType at h
  rw [findByTypeAux_eq] at h
  cases hf : List.filter (matchesType t) deps with
  | nil => rw [hf] at h; exact absurd h (by simp)
  | cons a tail =>
    cases tail with
    | nil =>
      rw [hf] at h
      simp only [Except.ok.injEq] at h
      have ha : a ∈ List.filter (matchesType t) deps := by
        rw [hf]; exact List.mem_singleton_self a
      have hm := List.of_mem_filter ha
      rw [← h]
      exact hm
    | cons b tail2 => rw [hf] at h; exact absurd h (by simp)

/-! ## Claim theorems -/

/-- C2: for every target type and every table order, `findByType` returns the
unique assignable registered dependency when exactly one exists, fails with
the not-found error when none is assignable, and fails with the conflict
(ambiguity) error whenever two or more are assignable, never silently
returning a first match. -/
theorem c2_findByType_unique_or_error (deps : DepTable) (t : GoType) :
    (List.filter (matchesType t) deps = [] →
      findByType deps t = .error (.libErr ("injector: couldn't find the dependency for " ++ t.str)))
    ∧ (∀ p, List.filter (matchesType t) deps = [p] → findByType deps t = .ok p.2)
    ∧ (2 ≤ (List.filter (matchesType t) deps).length →
      findByType deps t = .error (.libErr ("injector: there is a conflict when finding the dependency for " ++ t.str))) := by
  refine ⟨?_, ?_, ?_⟩
  · intro h
    unfold findByType
    rw [findByTypeAux_eq, h]
  · intro p h
    unfold findByType
    rw [findByTypeAux_eq, h]
  · intro h
    unfold findByType
    rw [findByTypeAux_eq]
    cases hf : List.filter (matchesType t) deps with
    | nil => rw [hf] at h; simp at h
    | cons a tail =>
      cases tail with
      | nil => rw [hf] at h; simp at h
      | cons b tail2 => rfl

/-- Witness for C2: a table holding one int and one string dependency; lookup
by int type returns the int entry, and after a second int entry is present the
lookup fails with the conflict error. -/
theorem c2_findByType_unique_or_error_witness :
    findByType [("a", ⟨.vInt 3, .tInt⟩), ("b", ⟨.vString "x", .tString⟩)] .tInt
      = .ok ⟨.vInt 3, .tInt⟩
    ∧ findByType [("a", ⟨.vInt 3, .tInt⟩), ("b", ⟨.vInt 4, .tInt⟩)] .tInt
      = .error (.libErr ("injector: there is a conflict when finding the dependency for " ++ GoType.str .tInt)) :=
  ⟨(c2_findByType_unique_or_error [("a", ⟨.vInt 3, .tInt⟩), ("b", ⟨.vString "x", .tString⟩)] .tInt).2.1
      ("a", ⟨.vInt 3, .tInt⟩) rfl,
   (c2_findByType_unique_or_error [("a", ⟨.vInt 3, .tInt⟩), ("b", ⟨.vInt 4, .tInt⟩)] .tInt).2.2
      (by simp [matchesType, assignableTo])⟩

/-- C10: a dependency returned by type-based lookup is always assignable to
the requested type, so when a field tagged with the sentinel resolves
successfully, the assignability check of the population loop cannot fire: the
loop either propagates the lookup error or assigns the found value, and the
not-assignable branch is unreachable for such fields. -/
theorem c10_auto_resolution_always_assignable (deps : DepTable) :
    (∀ t d, findByType deps t = .ok d → assignableTo d.reflectType t = true)
    ∧ (∀ (f : FieldInfo) (rest : List FieldInfo) (i : Nat) (heap : Heap) (addr : Nat),
        f.tag = some autoInjectionTag →
        populateFields deps addr (f :: rest) i heap =
          match findByType deps f.ftype with
          | .error e => (heap, some e)
          | .ok d => populateFields deps addr rest (i + 1) (setHeapField heap addr i d.value)) := by
  refine ⟨fun t d h => findByType_ok_assignable deps t d h, ?_⟩
  intro f rest i heap addr htag
  simp only [populateFields, htag]
  have hload : loadDepForTag deps autoInjectionTag f.ftype = findByType deps f.ftype := by
    simp [loadDepForTag]
  rw [hload]
  cases hfind : findByType deps f.ftype with
  | error e => rfl
  | ok d =>
    have := findByType_ok_assignable deps f.ftype d hfind
    simp [this]

/-- Witness for C10: a single-entry int table resolves an auto-tagged int
field, and the population loop assigns it without touching the
not-assignable branch. -/
theorem c10_auto_resolution_always_assignable_witness :
    assignableTo (dependency.mk (.vInt 3) .tInt).reflectType .tInt = true
    ∧ populateFields [("a", ⟨.vInt 3, .tInt⟩)] 0 [⟨.tInt, some autoInjectionTag⟩] 0 [.vStruct "S" [.vInt 0]]
        = populateFields [("a", ⟨.vInt 3, .tInt⟩)] 0 [] 1 (setHeapField [.vStruct "S" [.vInt 0]] 0 0 (.vInt 3)) :=
  ⟨(c10_auto_resolution_always_assignable [("a", ⟨.vInt 3, .tInt⟩)]).1 .tInt ⟨.vInt 3, .tInt⟩ rfl,
   (c10_auto_resolution_always_assignable [("a", ⟨.vInt 3, .tInt⟩)]).2
      ⟨.tInt, some autoInjectionTag⟩ [] 0 [.vStruct "S" [.vInt 0]] 0 rfl⟩

/-- C3: population of a candidate whose stored type is not pointer-to-struct
is a no-op returning the heap unchanged, unless the candidate's record type
itself carries an injector tag, in which case it fails with the
not-injectable error; in particular a by-value struct with a tagged field
always fails and an untagged non-pointer candidate never fails. -/
theorem c3_non_pointer_population (senv : StructEnv) (deps : DepTable) (heap : Heap)
    (dep : dependency) (h : isStructPtr dep.reflectType = false) :
    (populate senv deps heap dep =
      (heap, if hasInjectTag senv dep.reflectType then
               some (.libErr ("injector: " ++ dep.reflectType.str ++ " is not injectable, a pointer is expected"))
             else none))
    ∧ (∀ n, dep.reflectType = .tStruct n → (senv n).any (fun f => f.tag.isSome) = true →
        populate senv deps heap dep =
          (heap, some (.libErr ("injector: " ++ dep.reflectType.str ++ " is not injectable, a pointer is expected"))))
    ∧ (hasInjectTag senv dep.reflectType = false →
        populate senv deps heap dep = (heap, none)) := by
  have h1 : populate senv deps heap dep =
      (heap, if hasInjectTag senv dep.reflectType then
               some (.libErr ("injector: " ++ dep.reflectType.str ++ " is not injectable, a pointer is expected"))
             else none) := by
    by_cases hT : hasInjectTag senv dep.reflectType
    · simp [populate, h, hT]
    · simp [populate, h, hT]
  refine ⟨h1, ?_, ?_⟩
  · intro n hn ha
    rw [h1]
    have : hasInjectTag senv dep.reflectType = true := by
      rw [hn]; simpa [hasInjectTag] using ha
    rw [this]
    simp
  · intro hT
    rw [h1, hT]
    simp

/-- Witness for C3: a by-value struct with one tagged field fails with the
not-injectable error, and an untagged int value populates as a no-op. -/
theorem c3_non_pointer_population_witness :
    populate (fun n => if n = "S" then [⟨.tInt, some "x"⟩] else []) [] []
        ⟨.vStruct "S" [.vInt 0], .tStruct "S"⟩ =
      ([], some (.libErr ("injector: " ++ GoType.str (.tStruct "S") ++ " is not injectable, a pointer is expected")))
    ∧ populate (fun n => if n = "S" then [⟨.tInt, some "x"⟩] else []) [] [] ⟨.vInt 5, .tInt⟩ = ([], none) :=
  ⟨(c3_non_pointer_population (fun n => if n = "S" then [⟨.tInt, some "x"⟩] else []) [] []
      ⟨.vStruct "S" [.vInt 0], .tStruct "S"⟩ (by decide)).2.1 "S" rfl (by decide),
   (c3_non_pointer_population (fun n => if n = "S" then [⟨.tInt, some "x"⟩] else []) [] []
      ⟨.vInt 5, .tInt⟩ (by decide)).2.2 (by decide)⟩

/-- C4: for a field tagged with an explicit (non-sentinel) name, the
population loop performs an exact table lookup, failing with the
not-registered error naming the identifier when absent; when present but not
assignable to the declared field type it fails with the not-assignable error
naming both types; otherwise it writes the stored value into the field and
continues. -/
theorem c4_named_tag_resolution (deps : DepTable) (addr : Nat) (f : FieldInfo)
    (rest : List FieldInfo) (i : Nat) (heap : Heap) (tg : String)
    (htag : f.tag = some tg) (hname : tg ≠ autoInjectionTag) :
    (lookupDep deps tg = none →
      populateFields deps addr (f :: rest) i heap =
        (heap, some (.libErr ("injector: " ++ tg ++ " is not registered"))))
    ∧ (∀ d, lookupDep deps tg = some d → assignableTo d.reflectType f.ftype = false →
      populateFields deps addr (f :: rest) i heap =
        (heap, some (.libErr ("injector: " ++ f.ftype.str ++ " is not assignable from " ++ d.reflectType.str))))
    ∧ (∀ d, lookupDep deps tg = some d → assignableTo d.reflectType f.ftype = true →
      populateFields deps addr (f :: rest) i heap =
        populateFields deps addr rest (i + 1) (setHeapField heap addr i d.value)
      ∧ (∀ n fs, List.get? heap addr = some (.vStruct n fs) → i < fs.length →
          getHeapField (setHeapField heap addr i d.value) addr i = some d.value)) := by
  have hload : ∀ r, lookupDep deps tg = r →
      loadDepForTag deps tg f.ftype =
        (match r with
         | none => .error (.libErr ("injector: " ++ tg ++ " is not registered"))
         | some d => .ok d) := by
    intro r hr
    simp only [loadDepForTag, if_neg hname, hr]
  refine ⟨?_, ?_, ?_⟩
  · intro habs
    simp only [populateFields, htag, hload none habs]
  · intro d hd hna
    simp only [populateFields, htag, hload (some d) hd, hna]
    simp
  · intro d hd ha
    constructor
    · simp only [populateFields, htag, hload (some d) hd, ha]
      simp
    · intro n fs hheap hlen
      have haddr : addr < heap.length := (List.get?_eq_some.mp hheap).choose
      simp only [setHeapField, getHeapField, hheap]
      rw [List.get?_set_eq_of_lt _ haddr]
      exact List.get?_set_eq_of_lt _ hlen

/-- Witness for C4: a missing explicit tag fails with the not-registered
error, and a present assignable dependency is written into the field. -/
theorem c4_named_tag_resolution_witness :
    populateFields [("logger", ⟨.vString "log", .tString⟩)] 0
        [⟨.tString, some "missing"⟩] 0 [.vStruct "S" [.vString ""]]
      = ([.vStruct "S" [.vString ""]], some (.libErr ("injector: " ++ "missing" ++ " is not registered")))
    ∧ getHeapField (setHeapField [.vStruct "S" [.vString ""]] 0 0 (.vString "log")) 0 0
      = some (.vString "log") :=
  ⟨(c4_named_tag_resolution [("logger", ⟨.vString "log", .tString⟩)] 0
      ⟨.tString, some "missing"⟩ [] 0 [.vStruct "S" [.vString ""]] "missing" rfl (by decide)).1 rfl,
   ((c4_named_tag_resolution [("logger", ⟨.vString "log", .tString⟩)] 0
      ⟨.tString, some "logger"⟩ [] 0 [.vStruct "S" [.vString ""]] "logger" rfl (by decide)).2.2
      ⟨.vString "log", .tString⟩ rfl (by decide)).2 "S" [.vString ""] rfl (by decide)⟩

/-- Appending new bindings does not change the lookup of a name absent from
the left part. -/
theorem lookupDep_append_of_none (l1 l2 : DepTable) (name : String)
    (h : lookupDep l1 name = none) : lookupDep (l1 ++ l2) name = lookupDep l2 name := by
  induction l1 with
  | nil => rfl
  | cons p rest ih =>
    obtain ⟨k, d⟩ := p
    by_cases hk : k = name
    · simp [lookupDep, hk] at h
    · simp only [List.cons_append, lookupDep, if_neg hk] at h ⊢
      exact ih h

/-- A lookup that already succeeds is unchanged by appended bindings. -/
theorem lookupDep_append_of_some (l1 l2 : DepTable) (name : String) (d : dependency)
    (h : lookupDep l1 name = some d) : lookupDep (l1 ++ l2) name = some d := by
  induction l1 with
  | nil => simp [lookupDep] at h
  | cons p rest ih =>
    obtain ⟨k, d'⟩ := p
    by_cases hk : k = name
    · simp only [lookupDep, if_pos hk] at h
      simp only [List.cons_append, lookupDep, if_pos hk]
      exact h
    · simp only [lookupDep, if_neg hk] at h
      simp only [List.cons_append, lookupDep, if_neg hk]
      exact ih h

/-- Behaviour of registration under a fresh, non-reserved name: the candidate
is the factory output for a function-kinded input and the input itself
otherwise; it is populated, and bound only when population succeeds. -/
theorem NamedComponent_fresh (fenv : FuncEnv) (senv : StructEnv) (c : Injector) (heap : Heap)
    (name : String) (dep : GoValue)
    (hfresh : lookupDep c.dependencies name = none) (hvalid : name ≠ autoInjectionTag) :
    NamedComponent fenv senv c heap name dep =
      match (if (typeOf dep).kind = Kind.kFunc then executeFunc fenv c.dependencies dep
             else Except.ok { value := dep, reflectType := typeOf dep }) with
      | .error e => (c, heap, some e)
      | .ok d =>
        match populate senv c.dependencies heap d with
        | (h2, some e) => (c, h2, some e)
        | (h2, none) => ({ c with dependencies := c.dependencies ++ [(name, d)] }, h2, none) := by
  unfold NamedComponent
  rw [hfresh]
  simp only [Option.isSome_none, Bool.false_eq_true, if_false, if_neg hvalid]

/-- C7: registering a second time under an already bound name fails with the
duplicate error and leaves the original binding intact. -/
theorem c7_duplicate_registration (fenv : FuncEnv) (senv : StructEnv) (c : Injector)
    (heap : Heap) (name : String) (dep : GoValue) (d : dependency)
    (hbound : lookupDep c.dependencies name = some d) :
    NamedComponent fenv senv c heap name dep =
      (c, heap, some (.libErr ("injector: " ++ name ++ " is already registered")))
    ∧ lookupDep ((NamedComponent fenv senv c heap name dep).1).dependencies name = some d := by
  have h1 : NamedComponent fenv senv c heap name dep =
      (c, heap, some (.libErr ("injector: " ++ name ++ " is already registered"))) := by
    unfold NamedComponent
    rw [hbound]
    rfl
  exact ⟨h1, by rw [h1]; exact hbound⟩

/-- Witness for C7: re-registering the bound name a keeps its int binding and
reports the duplicate error. -/
theorem c7_duplicate_registration_witness :
    NamedComponent (fun _ => ⟨[], [], fun _ => []⟩) (fun _ => [])
        ⟨[("a", ⟨.vInt 1, .tInt⟩)], 0⟩ [] "a" (.vInt 2) =
      (⟨[("a", ⟨.vInt 1, .tInt⟩)], 0⟩, [], some (.libErr ("injector: " ++ "a" ++ " is already registered")))
    ∧ lookupDep ((NamedComponent (fun _ => ⟨[], [], fun _ => []⟩) (fun _ => [])
        ⟨[("a", ⟨.vInt 1, .tInt⟩)], 0⟩ [] "a" (.vInt 2)).1).dependencies "a" = some ⟨.vInt 1, .tInt⟩ :=
  c7_duplicate_registration (fun _ => ⟨[], [], fun _ => []⟩) (fun _ => [])
    ⟨[("a", ⟨.vInt 1, .tInt⟩)], 0⟩ [] "a" (.vInt 2) ⟨.vInt 1, .tInt⟩ rfl

/-- C1: under a fresh valid name, a function-kinded input is first run
through the factory-function protocol and the produced dependency is
populated and bound, while a non-function input is itself the candidate that
is populated and bound; a single-result factory is invoked on its by-type
resolved parameters and its first result becomes the produced value. -/
theorem c1_registration_dispatch (fenv : FuncEnv) (senv : StructEnv) (c : Injector)
    (heap : Heap) (name : String) (dep : GoValue)
    (hfresh : lookupDep c.dependencies name = none) (hvalid : name ≠ autoInjectionTag) :
    ((typeOf dep).kind = Kind.kFunc →
      ∀ d h2, executeFunc fenv c.dependencies dep = .ok d →
        populate senv c.dependencies heap d = (h2, none) →
        NamedComponent fenv senv c heap name dep =
          ({ c with dependencies := c.dependencies ++ [(name, d)] }, h2, none))
    ∧ ((typeOf dep).kind ≠ Kind.kFunc →
      ∀ h2, populate senv c.dependencies heap ⟨dep, typeOf dep⟩ = (h2, none) →
        NamedComponent fenv senv c heap name dep =
          ({ c with dependencies := c.dependencies ++ [(name, ⟨dep, typeOf dep⟩)] }, h2, none))
    ∧ (∀ f ps, fenv (funcNameOf dep) = f → f.outs.length = 1 →
        generateInParams c.dependencies f = .ok ps → (f.body ps).length = 1 →
        executeFunc fenv c.dependencies dep =
          .ok ⟨(f.body ps).getD 0 .vNil, f.outs.getD 0 .tNilIface⟩) := by
  refine ⟨?_, ?_, ?_⟩
  · intro hkind d h2 hexec hpop
    rw [NamedComponent_fresh fenv senv c heap name dep hfresh hvalid]
    rw [if_pos hkind, hexec]
    show (match populate senv c.dependencies heap d with
      | (h2, some e) => (c, h2, some e)
      | (h2, none) => ({ c with dependencies := c.dependencies ++ [(name, d)] }, h2, none)) = _
    rw [hpop]
  · intro hkind h2 hpop
    rw [NamedComponent_fresh fenv senv c heap name dep hfresh hvalid]
    rw [if_neg hkind]
    show (match populate senv c.dependencies heap ⟨dep, typeOf dep⟩ with
      | (h2, some e) => (c, h2, some e)
      | (h2, none) =>
        ({ c with dependencies := c.dependencies ++ [(name, (⟨dep, typeOf dep⟩ : dependency))] }, h2, none)) = _
    rw [hpop]
  · intro f ps hf hout hps hbody
    subst hf
    simp only [executeFunc, hps, hout, hbody]
    norm_num

/-- Witness for C1: registering a nullary factory returning 7 binds the
produced int, and registering a plain int binds the input itself. -/
theorem c1_registration_dispatch_witness :
    NamedComponent (fun _ => ⟨[], [.tInt], fun _ => [.vInt 7]⟩) (fun _ => []) ⟨[], 0⟩ [] "a" (.vFunc "f") =
      (⟨[("a", ⟨.vInt 7, .tInt⟩)], 0⟩, [], none)
    ∧ NamedComponent (fun _ => ⟨[], [.tInt], fun _ => [.vInt 7]⟩) (fun _ => []) ⟨[], 0⟩ [] "b" (.vInt 5) =
      (⟨[("b", ⟨.vInt 5, .tInt⟩)], 0⟩, [], none) :=
  ⟨(c1_registration_dispatch (fun _ => ⟨[], [.tInt], fun _ => [.vInt 7]⟩) (fun _ => [])
      ⟨[], 0⟩ [] "a" (.vFunc "f") rfl (by decide)).1 rfl ⟨.vInt 7, .tInt⟩ [] rfl rfl,
   (c1_registration_dispatch (fun _ => ⟨[], [.tInt], fun _ => [.vInt 7]⟩) (fun _ => [])
      ⟨[], 0⟩ [] "b" (.vInt 5) rfl (by decide)).2.1 (by decide) [] rfl⟩

/-- C5: whenever registration returns an error the dependency table is
unchanged (so the name is not bound); and a factory function whose second
result is a non-nil error makes registration fail with exactly that error
value, unwrapped. -/
theorem c5_registration_atomic_on_error (fenv : FuncEnv) (senv : StructEnv) (c : Injector)
    (heap : Heap) (name : String) (dep : GoValue) :
    (∀ c' h' e, NamedComponent fenv senv c heap name dep = (c', h', some e) →
      c'.dependencies = c.dependencies)
    ∧ (∀ f ps out ev,
        lookupDep c.dependencies name = none → name ≠ autoInjectionTag →
        (typeOf dep).kind = Kind.kFunc →
        fenv (funcNameOf dep) = f → f.outs.length = 2 →
        implementsError (f.outs.getD 1 .tNilIface) = true →
        generateInParams c.dependencies f = .ok ps →
        f.body ps = out → out.length = 2 → out.getD 1 .vNil = ev → ev.isNil = false →
        NamedComponent fenv senv c heap name dep = (c, heap, some (.userErr ev))) := by
  constructor
  · intro c' h' e h
    unfold NamedComponent at h
    split at h
    · cases h; rfl
    · split at h
      · cases h; rfl
      · dsimp only [] at h
        split at h
        · cases h; rfl
        · split at h
          · cases h; rfl
          · simp at h
  · intro f ps out ev hfresh hvalid hkind hf hout2 himpl hps hbody hlen herr hnn
    have hexec : executeFunc fenv c.dependencies dep = .error (.userErr ev) := by
      simp only [executeFunc, hf, hout2, hps, himpl, hbody, hlen, herr]
      norm_num [hnn]
    rw [NamedComponent_fresh fenv senv c heap name dep hfresh hvalid]
    rw [if_pos hkind, hexec]

/-- Witness for C5: a factory returning a non-nil error value makes the
registration fail with that exact error and the table stays empty. -/
theorem c5_registration_atomic_on_error_witness :
    NamedComponent (fun _ => ⟨[], [.tInt, .tIface "error"], fun _ => [.vInt 0, .vNamed "myErr" ["error"] 0]⟩)
        (fun _ => []) ⟨[], 0⟩ [] "a" (.vFunc "f") =
      (⟨[], 0⟩, [], some (.userErr (.vNamed "myErr" ["error"] 0)))
    ∧ (⟨[], 0⟩ : Injector).dependencies = (⟨[], 0⟩ : Injector).dependencies := by
  have h := (c5_registration_atomic_on_error
      (fun _ => ⟨[], [.tInt, .tIface "error"], fun _ => [.vInt 0, .vNamed "myErr" ["error"] 0]⟩)
      (fun _ => []) ⟨[], 0⟩ [] "a" (.vFunc "f")).2
      ⟨[], [.tInt, .tIface "error"], fun _ => [.vInt 0, .vNamed "myErr" ["error"] 0]⟩
      [] [.vInt 0, .vNamed "myErr" ["error"] 0] (.vNamed "myErr" ["error"] 0)
      rfl (by decide) rfl rfl rfl (by decide) rfl rfl rfl rfl rfl
  exact ⟨h, (c5_registration_atomic_on_error
      (fun _ => ⟨[], [.tInt, .tIface "error"], fun _ => [.vInt 0, .vNamed "myErr" ["error"] 0]⟩)
      (fun _ => []) ⟨[], 0⟩ [] "a" (.vFunc "f")).1 ⟨[], 0⟩ [] (.userErr (.vNamed "myErr" ["error"] 0)) h⟩

/-- Registration never creates a binding under the reserved name: if the
reserved name is absent before a call of `NamedComponent` it is absent
afterwards. -/
theorem NamedComponent_preserves_no_auto (fenv : FuncEnv) (senv : StructEnv) (c : Injector)
    (heap : Heap) (name : String) (dep : GoValue)
    (h : lookupDep c.dependencies autoInjectionTag = none) :
    lookupDep ((NamedComponent fenv senv c heap name dep).1).dependencies autoInjectionTag = none := by
  by_cases h1 : (lookupDep c.dependencies name).isSome
  · unfold NamedComponent; rw [if_pos h1]; exact h
  · by_cases h2 : name = autoInjectionTag
    · unfold NamedComponent; rw [if_neg h1, if_pos h2]; exact h
    · rw [NamedComponent_fresh fenv senv c heap name dep (Option.not_isSome_iff_eq_none.mp h1) h2]
      cases hE : (if (typeOf dep).kind = Kind.kFunc then executeFunc fenv c.dependencies dep
                  else Except.ok { value := dep, reflectType := typeOf dep }) with
      | error e => exact h
      | ok d =>
        show lookupDep ((match populate senv c.dependencies heap d with
          | (h2, some e) => (c, h2, some e)
          | (h2, none) =>
            ({ c with dependencies := c.dependencies ++ [(name, d)] }, h2, none)).1).dependencies
          autoInjectionTag = none
        rcases hP : populate senv c.dependencies heap d with ⟨h2', oe⟩
        cases oe with
        | some e => exact h
        | none =>
          show lookupDep (c.dependencies ++ [(name, d)]) autoInjectionTag = none
          rw [lookupDep_append_of_none _ _ _ h]
          simp [lookupDep, h2]

/-- The container states reachable through the public registration surface,
starting from `New`. -/
inductive Reachable : Injector → Prop where
  | init : Reachable Injector.new
  | namedStep (fenv : FuncEnv) (senv : StructEnv) (c : Injector) (heap : Heap)
      (name : String) (dep : GoValue) :
      Reachable c → Reachable (NamedComponent fenv senv c heap name dep).1
  | compStep (fenv : FuncEnv) (senv : StructEnv) (c : Injector) (heap : Heap) (dep : GoValue) :
      Reachable c → Reachable (Component fenv senv c heap dep).1

/-- C6: in every reachable container state the reserved name is not a key,
and registering under the reserved name fails with the reserved-name error
before any factory invocation or field population, leaving the container and
the heap unchanged. -/
theorem c6_auto_never_a_key (c : Injector) (hr : Reachable c) :
    lookupDep c.dependencies autoInjectionTag = none
    ∧ ∀ (fenv : FuncEnv) (senv : StructEnv) (heap : Heap) (dep : GoValue),
        NamedComponent fenv senv c heap autoInjectionTag dep =
          (c, heap, some (.libErr ("injector: " ++ autoInjectionTag ++ " is revserved, please use a different name"))) := by
  have hnone : lookupDep c.dependencies autoInjectionTag = none := by
    induction hr with
    | init => rfl
    | namedStep fenv senv c' heap name dep hc ih =>
      exact NamedComponent_preserves_no_auto fenv senv c' heap name dep ih
    | compStep fenv senv c' heap dep hc ih =>
      unfold Component
      exact NamedComponent_preserves_no_auto fenv senv _ heap _ dep ih
  refine ⟨hnone, fun fenv senv heap dep => ?_⟩
  unfold NamedComponent
  rw [hnone]
  rfl

/-- Witness for C6: from the empty container, registering under the reserved
name fails with the reserved-name error and changes nothing. -/
theorem c6_auto_never_a_key_witness :
    lookupDep Injector.new.dependencies autoInjectionTag = none
    ∧ NamedComponent (fun _ => ⟨[], [], fun _ => []⟩) (fun _ => []) Injector.new [] autoInjectionTag (.vInt 1) =
      (Injector.new, [], some (.libErr ("injector: " ++ autoInjectionTag ++ " is revserved, please use a different name"))) :=
  ⟨(c6_auto_never_a_key Injector.new Reachable.init).1,
   (c6_auto_never_a_key Injector.new Reachable.init).2 (fun _ => ⟨[], [], fun _ => []⟩) (fun _ => []) [] (.vInt 1)⟩

/-- Writing into a heap slot that does not hold a struct is a no-op. -/
theorem setHeapField_eq_self (heap : Heap) (addr i : Nat) (v : GoValue)
    (h : ∀ n fs, List.get? heap addr ≠ some (.vStruct n fs)) :
    setHeapField heap addr i v = heap := by
  unfold setHeapField
  cases hh : List.get? heap addr with
  | none => rfl
  | some w =>
    cases w with
    | vStruct n fs => exact absurd hh (h n fs)
    | vInt m => rfl
    | vString s => rfl
    | vNamed a b p => rfl
    | vPtr e a => rfl
    | vFunc a => rfl
    | vNil => rfl

/-- Writing one field leaves every other field of the same struct
unchanged. -/
theorem getHeapField_setHeapField_ne (heap : Heap) (addr i j : Nat) (v : GoValue) (hij : i ≠ j) :
    getHeapField (setHeapField heap addr i v) addr j = getHeapField heap addr j := by
  cases hh : List.get? heap addr with
  | none => rw [setHeapField_eq_self heap addr i v (by intro n fs hcon; rw [hh] at hcon; simp at hcon)]
  | some w =>
    cases w with
    | vStruct n fs =>
      have haddr : addr < heap.length := (List.get?_eq_some.mp hh).choose
      simp only [setHeapField, getHeapField, hh]
      rw [List.get?_set_eq_of_lt _ haddr]
      exact List.get?_set_ne _ _ hij
    | vInt m => rw [setHeapField_eq_self heap addr i v (by intro n fs hcon; rw [hh] at hcon; simp at hcon)]
    | vString s => rw [setHeapField_eq_self heap addr i v (by intro n fs hcon; rw [hh] at hcon; simp at hcon)]
    | vNamed a b p => rw [setHeapField_eq_self heap addr i v (by intro n fs hcon; rw [hh] at hcon; simp at hcon)]
    | vPtr e a => rw [setHeapField_eq_self heap addr i v (by intro n fs hcon; rw [hh] at hcon; simp at hcon)]
    | vFunc a => rw [setHeapField_eq_self heap addr i v (by intro n fs hcon; rw [hh] at hcon; simp at hcon)]
    | vNil => rw [setHeapField_eq_self heap addr i v (by intro n fs hcon; rw [hh] at hcon; simp at hcon)]

/-- Writing a field of the struct at one address leaves every other heap
address unchanged. -/
theorem get?_setHeapField_other (heap : Heap) (addr i : Nat) (v : GoValue) (a : Nat)
    (ha : a ≠ addr) : List.get? (setHeapField heap addr i v) a = List.get? heap a := by
  cases hh : List.get? heap addr with
  | none => rw [setHeapField_eq_self heap addr i v (by intro n fs hcon; rw [hh] at hcon; simp at hcon)]
  | some w =>
    cases w with
    | vStruct n fs =>
      simp only [setHeapField, hh]
      exact List.get?_set_ne _ _ (Ne.symm ha)
    | vInt m => rw [setHeapField_eq_self heap addr i v (by intro n fs hcon; rw [hh] at hcon; simp at hcon)]
    | vString s => rw [setHeapField_eq_self heap addr i v (by intro n fs hcon; rw [hh] at hcon; simp at hcon)]
    | vNamed b c p => rw [setHeapField_eq_self heap addr i v (by intro n fs hcon; rw [hh] at hcon; simp at hcon)]
    | vPtr e b => rw [setHeapField_eq_self heap addr i v (by intro n fs hcon; rw [hh] at hcon; simp at hcon)]
    | vFunc b => rw [setHeapField_eq_self heap addr i v (by intro n fs hcon; rw [hh] at hcon; simp at hcon)]
    | vNil => rw [setHeapField_eq_self heap addr i v (by intro n fs hcon; rw [hh] at hcon; simp at hcon)]

/-- The population loop only writes tagged fields at their own indices: any
field position that is not the index of a tagged remaining field keeps its
heap value, whether the loop succeeds or fails. -/
theorem populateFields_untouched (deps : DepTable) (addr : Nat) :
    ∀ (fields : List FieldInfo) (i : Nat) (heap : Heap) (j : Nat),
      (∀ k f, List.get? fields k = some f → f.tag.isSome = true → j ≠ i + k) →
      getHeapField (populateFields deps addr fields i heap).1 addr j = getHeapField heap addr j := by
  intro fields
  induction fields with
  | nil => intro i heap j hj; rfl
  | cons f rest ih =>
    intro i heap j hj
    cases htag : f.tag with
    | none =>
      simp only [populateFields, htag]
      exact ih (i + 1) heap j (fun k g hk hg => by
        have := hj (k + 1) g (by simpa using hk) hg
        omega)
    | some tg =>
      have hji : j ≠ i := by
        have := hj 0 f rfl (by simp [htag])
        simpa using this
      simp only [populateFields, htag]
      cases hload : loadDepForTag deps tg f.ftype with
      | error e => rfl
      | ok d =>
        cases hass : assignableTo d.reflectType f.ftype with
        | false => simp [hass]
        | true =>
          simp only [hass, Bool.not_true, Bool.false_eq_true, if_false]
          rw [ih (i + 1) _ j (fun k g hk hg => by
            have := hj (k + 1) g (by simpa using hk) hg
            omega)]
          exact getHeapField_setHeapField_ne heap addr i j d.value (Ne.symm hji)
    
/-- The population loop never touches a heap address other than the one it
populates. -/
theorem populateFields_other_addr (deps : DepTable) (addr : Nat) :
    ∀ (fields : List FieldInfo) (i : Nat) (heap : Heap) (a : Nat), a ≠ addr →
      List.get? (populateFields deps addr fields i heap).1 a = List.get? heap a := by
  intro fields
  induction fields with
  | nil => intro i heap a ha; rfl
  | cons f rest ih =>
    intro i heap a ha
    cases htag : f.tag with
    | none =>
      simp only [populateFields, htag]
      exact ih (i + 1) heap a ha
    | some tg =>
      simp only [populateFields, htag]
      cases hload : loadDepForTag deps tg f.ftype with
      | error e => rfl
      | ok d =>
        cases hass : assignableTo d.reflectType f.ftype with
        | false => simp [hass]
        | true =>
          simp only [hass, Bool.not_true, Bool.false_eq_true, if_false]
          rw [ih (i + 1) _ a ha]
          exact get?_setHeapField_other heap addr i d.value a ha

/-- C9: field population is not rolled back on failure.  Whatever heap the
loop returns (success or error), untagged field positions and foreign heap
addresses are untouched, and once a tagged field at position `i` has been
resolved and assigned, the heap returned by the rest of the loop still holds
the assigned value at position `i`, even when a later field fails. -/
theorem c9_population_not_rolled_back (deps : DepTable) (addr : Nat) :
    (∀ (fields : List FieldInfo) (i : Nat) (heap : Heap) (j : Nat),
      (∀ k f, List.get? fields k = some f → f.tag.isSome = true → j ≠ i + k) →
      getHeapField (populateFields deps addr fields i heap).1 addr j = getHeapField heap addr j)
    ∧ (∀ (fields : List FieldInfo) (i : Nat) (heap : Heap) (a : Nat), a ≠ addr →
      List.get? (populateFields deps addr fields i heap).1 a = List.get? heap a)
    ∧ (∀ (f : FieldInfo) (rest : List FieldInfo) (i : Nat) (heap : Heap) (tg : String)
        (d : dependency) (n : String) (fs : List GoValue),
      f.tag = some tg → loadDepForTag deps tg f.ftype = .ok d →
      assignableTo d.reflectType f.ftype = true →
      List.get? heap addr = some (.vStruct n fs) → i < fs.length →
      getHeapField (populateFields deps addr (f :: rest) i heap).1 addr i = some d.value) := by
  refine ⟨populateFields_untouched deps addr, populateFields_other_addr deps addr, ?_⟩
  intro f rest i heap tg d n fs htag hload hass hheap hlen
  simp only [populateFields, htag, hload, hass, Bool.not_true, Bool.false_eq_true, if_false]
  rw [populateFields_untouched deps addr rest (i + 1) _ i (fun k g hk hg => by omega)]
  have haddr : addr < heap.length := (List.get?_eq_some.mp hheap).choose
  simp only [setHeapField, getHeapField, hheap]
  rw [List.get?_set_eq_of_lt _ haddr]
  exact List.get?_set_eq_of_lt _ hlen

/-- Witness for C9: with one registered dependency x, populating the
two-field struct whose second tag is unregistered fails, yet the first field
keeps the assigned value 9 in the returned heap. -/
theorem c9_population_not_rolled_back_witness :
    getHeapField (populateFields [("x", ⟨.vInt 9, .tInt⟩)] 0
        [⟨.tInt, some "x"⟩, ⟨.tInt, some "missing"⟩] 0 [.vStruct "S" [.vInt 0, .vInt 0]]).1 0 0
      = some (.vInt 9)
    ∧ (populateFields [("x", ⟨.vInt 9, .tInt⟩)] 0
        [⟨.tInt, some "x"⟩, ⟨.tInt, some "missing"⟩] 0 [.vStruct "S" [.vInt 0, .vInt 0]]).2
      = some (.libErr ("injector: " ++ "missing" ++ " is not registered")) :=
  ⟨(c9_population_not_rolled_back [("x", ⟨.vInt 9, .tInt⟩)] 0).2.2
      ⟨.tInt, some "x"⟩ [⟨.tInt, some "missing"⟩] 0 [.vStruct "S" [.vInt 0, .vInt 0]]
      "x" ⟨.vInt 9, .tInt⟩ "S" [.vInt 0, .vInt 0] rfl rfl (by decide) rfl (by decide),
   rfl⟩

/-- C8: the anonymous-name generator starts at unnamed.0, skips bound names,
and advances the counter only when the generated name collides, never on a
collision-free call; three anonymous registrations from the empty container
bind unnamed.0, unnamed.1, unnamed.2 (the second and third calls each meet
one collision, so the counter ends at 2), and with unnamed.0 pre-registered
explicitly the next anonymous registration binds unnamed.1 having advanced
the counter once. -/
theorem c8_anonymous_naming :
    (∀ (deps : DepTable) (fuel counter : Nat),
      lookupDep deps (unnamedPref ++ "." ++ toString counter) = none →
      genNameLoop deps (fuel + 1) counter = (unnamedPref ++ "." ++ toString counter, counter))
    ∧ (∀ (deps : DepTable) (fuel counter : Nat),
      (lookupDep deps (unnamedPref ++ "." ++ toString counter)).isSome = true →
      genNameLoop deps (fuel + 1) counter = genNameLoop deps fuel (counter + 1))
    ∧ ((Component (fun _ => ⟨[], [], fun _ => []⟩) (fun _ => [])
          ((Component (fun _ => ⟨[], [], fun _ => []⟩) (fun _ => [])
            ((Component (fun _ => ⟨[], [], fun _ => []⟩) (fun _ => [])
              Injector.new [] (.vInt 1)).1) [] (.vInt 1)).1) [] (.vInt 1)).1
        = ⟨[("unnamed.0", ⟨.vInt 1, .tInt⟩), ("unnamed.1", ⟨.vInt 1, .tInt⟩),
            ("unnamed.2", ⟨.vInt 1, .tInt⟩)], 2⟩)
    ∧ ((Component (fun _ => ⟨[], [], fun _ => []⟩) (fun _ => [])
          ((NamedComponent (fun _ => ⟨[], [], fun _ => []⟩) (fun _ => [])
            Injector.new [] "unnamed.0" (.vInt 5)).1) [] (.vInt 1)).1
        = ⟨[("unnamed.0", ⟨.vInt 5, .tInt⟩), ("unnamed.1", ⟨.vInt 1, .tInt⟩)], 1⟩) := by
  refine ⟨?_, ?_, ?_, ?_⟩
  · intro deps fuel counter h
    simp [genNameLoop, h]
  · intro deps fuel counter h
    simp [genNameLoop, h]
  · rfl
  · rfl

/-- Witness for C8: the generator returns the name for the current counter
untouched on a collision-free table, and advances once past a collision. -/
theorem c8_anonymous_naming_witness :
    genNameLoop [] (0 + 1) 0 = (unnamedPref ++ "." ++ toString 0, 0)
    ∧ genNameLoop [("unnamed.0", ⟨.vInt 5, .tInt⟩)] (0 + 1) 0
      = genNameLoop [("unnamed.0", ⟨.vInt 5, .tInt⟩)] 0 1 :=
  ⟨c8_anonymous_naming.1 [] 0 0 rfl,
   c8_anonymous_naming.2.1 [("unnamed.0", ⟨.vInt 5, .tInt⟩)] 0 0 (by decide)⟩
